import Mathlib

/-!
Verification of the cascading organization-deletion tool `snyk_org_deleter.py`.

The Python source is shallowly embedded: HTTP interactions are abstracted as
response environments (functions from a call index or URL to the response the
platform would return), machine time is modelled as a rational number of
seconds, and each relevant source function becomes an executable Lean
definition mirroring its control flow statement by statement.  Logging calls
and `time.sleep` delays are dropped (they do not affect control flow or
results); concurrent child-resource deletion inside one organization is
modelled by its join point (the pool's `with` block and the `as_completed`
loop make the enclosing function return only once every child task has
finished), and the nondeterministic completion order of concurrent workers is
modelled by quantifying over an arbitrary permutation of their result-append
events.
-/

set_option autoImplicit false

/-! ### RateLimiter (source lines 35-63) -/

/-- Deadline transition of `RateLimiter.handle_429` (lines 43-58): under the
lock, if the current time is still before `backoff_until` the deadline is left
unchanged (the caller just waits out the remainder); otherwise the deadline is
set to `current_time + 60`. -/
def handle_429 (now backoff_until : ℚ) : ℚ :=
  if now < backoff_until then backoff_until else now + 60

/-- The shared deadline after a whole sequence of 429 observations, each made
at the given time, starting from deadline `backoff_until`. -/
def handle_429_seq (times : List ℚ) (backoff_until : ℚ) : ℚ :=
  times.foldl (fun b t => handle_429 t b) backoff_until

/-- `RateLimiter.is_in_backoff` (lines 60-63). -/
def is_in_backoff (now backoff_until : ℚ) : Bool :=
  decide (now < backoff_until)

/-- The proactive delay inserted before a delete request when the limiter is
in backoff: `wait_time = 5 + random.uniform(0, 5)` (lines 188, 506, 666),
as a function of the random draw. -/
def jitter_wait (draw : ℚ) : ℚ := 5 + draw

/-! ### Organization classification (`analyze_orgs_for_deletion`, lines 307-333) -/

/-- The `attributes` map of an organization payload, restricted to the keys
the classifier reads; a missing key is `none`. -/
structure OrgAttributes where
  name : Option String
  group_id : Option String
deriving DecidableEq

/-- An organization object as returned by the list endpoint: `org.get('id')`
and `org.get('attributes', {})`.  A missing `attributes` map is represented by
the record with both fields `none`. -/
structure Org where
  id : Option String
  attributes : OrgAttributes
deriving DecidableEq

/-- `org.get('attributes', {}).get('name', 'Unknown')` (line 314). -/
def orgName (o : Org) : String := o.attributes.name.getD "Unknown"

/-- The exclusion test of line 317: `org_id in exclusions or org_name in
exclusions`.  A `None` identifier is never a member of a list of strings. -/
def orgExcluded (exclusions : List String) (o : Org) : Bool :=
  (match o.id with
   | some i => decide (i ∈ exclusions)
   | none => false) || decide (orgName o ∈ exclusions)

/-- Python truthiness of the optional `group_id` argument (line 323,
`if group_id:`): an absent value and the empty string are both falsy. -/
def groupFilterActive : Option String → Bool
  | none => false
  | some s => decide (s ≠ "")

/-- The combined condition under which the classifier routes an organization
to the protected list: the exclusion test of line 317, or an active group
filter together with the mismatch test of line 325. -/
def org_protected (exclusions : List String) (group_id : Option String) (o : Org) : Bool :=
  orgExcluded exclusions o ||
    (groupFilterActive group_id && decide (o.attributes.group_id ≠ group_id))

/-- `SnykOrgDeleter.analyze_orgs_for_deletion` (lines 307-333): one pass over
the organizations, appending each to exactly one of the two result lists;
exclusion is tested first, then (when the group filter is truthy) the group
mismatch, and everything else is deletable. -/
def analyze_orgs_for_deletion :
    List Org → List String → Option String → List Org × List Org
  | [], _, _ => ([], [])
  | o :: rest, exclusions, group_id =>
    let p := analyze_orgs_for_deletion rest exclusions group_id
    if orgExcluded exclusions o then (p.1, o :: p.2)
    else if groupFilterActive group_id && decide (o.attributes.group_id ≠ group_id) then
      (p.1, o :: p.2)
    else (o :: p.1, p.2)

/-- The two lists produced by the classifier are the two filters of the input
by the protection condition. -/
theorem analyze_eq_filter (orgs : List Org) (exclusions : List String)
    (group_id : Option String) :
    analyze_orgs_for_deletion orgs exclusions group_id =
      (orgs.filter (fun o => !org_protected exclusions group_id o),
       orgs.filter (fun o => org_protected exclusions group_id o)) := by
  induction orgs with
  | nil => rfl
  | cons o rest ih =>
    by_cases h1 : orgExcluded exclusions o
    · simp [analyze_orgs_for_deletion, ih, List.filter_cons, org_protected, h1]
    · by_cases h2 : groupFilterActive group_id = true ∧ o.attributes.group_id ≠ group_id
      · simp [analyze_orgs_for_deletion, ih, List.filter_cons, org_protected, h1, h2.1, h2.2]
      · rw [not_and_or] at h2
        rcases h2 with h2 | h2
        · have h2f : groupFilterActive group_id = false := by
            cases hgf : groupFilterActive group_id
            · rfl
            · exact absurd hgf h2
          simp [analyze_orgs_for_deletion, ih, List.filter_cons, org_protected, h1, h2f]
        · simp [analyze_orgs_for_deletion, ih, List.filter_cons, org_protected, h1,
            not_not.mp h2]

/-! ### Claim C7: backoff deadline monotonicity -/

/-- A single 429 observation never moves the shared deadline backward. -/
theorem handle_429_le (now backoff_until : ℚ) :
    backoff_until ≤ handle_429 now backoff_until := by
  unfold handle_429
  split
  · exact le_refl _
  · rename_i h
    have := le_of_not_lt h
    linarith

/-- Iterated observations never move the deadline backward. -/
theorem handle_429_seq_le (times : List ℚ) :
    ∀ b : ℚ, b ≤ handle_429_seq times b := by
  induction times with
  | nil => intro b; exact le_refl b
  | cons t ts ih =>
    intro b
    simp only [handle_429_seq, List.foldl_cons]
    exact le_trans (handle_429_le t b) (ih (handle_429 t b))

/-- C7: the shared backoff deadline is monotonically non-decreasing across
every sequence of rate-limit observations in a run: a 429 observed while no
backoff is active sets the deadline to now+60, one observed during an active
backoff leaves the deadline unchanged, and in either case (hence along any
sequence of observations) the deadline never moves backward. -/
theorem C7_backoff_deadline_monotone :
    (∀ now backoff_until : ℚ, backoff_until ≤ handle_429 now backoff_until) ∧
    (∀ now backoff_until : ℚ, ¬ now < backoff_until →
        handle_429 now backoff_until = now + 60) ∧
    (∀ now backoff_until : ℚ, now < backoff_until →
        handle_429 now backoff_until = backoff_until) ∧
    (∀ (times : List ℚ) (backoff_until : ℚ),
        backoff_until ≤ handle_429_seq times backoff_until) := by
  refine ⟨handle_429_le, ?_, ?_, fun times b => handle_429_seq_le times b⟩
  · intro now b h
    simp [handle_429, h]
  · intro now b h
    simp [handle_429, h]

/-- Concrete instantiation of `C7_backoff_deadline_monotone`: a fresh 429 at
time 20 with an expired deadline 10 sets the deadline to 80; a 429 at time 0
during an active backoff until 10 keeps the deadline at 10. -/
theorem C7_backoff_deadline_monotone_witness :
    (10 : ℚ) ≤ handle_429 0 10 ∧ handle_429 20 10 = 80 ∧
      handle_429 0 10 = 10 ∧ (10 : ℚ) ≤ handle_429_seq [0, 20] 10 := by
  refine ⟨C7_backoff_deadline_monotone.1 0 10, ?_,
    C7_backoff_deadline_monotone.2.2.1 0 10 (by norm_num),
    C7_backoff_deadline_monotone.2.2.2 [0, 20] 10⟩
  have h := C7_backoff_deadline_monotone.2.1 20 10 (by norm_num)
  rw [h]
  norm_num

/-! ### Claim C9: proactive jitter delay range -/

/-- C9 counterexample: the code computes `5 + random.uniform(0, 5)`, so at
the legal draw 1 the inserted delay is 6 seconds, which does not lie in the
0 to 5 second range the claim states. -/
theorem C9_jitter_counterexample :
    (0 : ℚ) ≤ 1 ∧ (1 : ℚ) ≤ 5 ∧ jitter_wait 1 = 6 ∧
      ¬ ((0 : ℚ) ≤ jitter_wait 1 ∧ jitter_wait 1 ≤ 5) := by
  refine ⟨by norm_num, by norm_num, by norm_num [jitter_wait], ?_⟩
  norm_num [jitter_wait]

/-- C9 amended: for every random draw in the range of `random.uniform(0, 5)`,
the proactive delay inserted when the rate limiter is in backoff lies in the
range 5 to 10 seconds. -/
theorem C9_jitter_range (draw : ℚ) (h0 : 0 ≤ draw) (h5 : draw ≤ 5) :
    5 ≤ jitter_wait draw ∧ jitter_wait draw ≤ 10 := by
  unfold jitter_wait
  constructor <;> linarith

/-- Concrete instantiation of `C9_jitter_range` at draw 2. -/
theorem C9_jitter_range_witness : 5 ≤ jitter_wait 2 ∧ jitter_wait 2 ≤ 10 :=
  C9_jitter_range 2 (by norm_num) (by norm_num)

/-! ### Claim C6: classification -/

/-- C6: classification evaluates each organization first-match-wins: an
organization whose identifier or name is in the exclusion set is protected
regardless of the group filter; otherwise an active group filter with a
mismatching recorded group protects it; otherwise it is deletable.  The two
output lists are complementary filters of the input, so every organization
lands in exactly one of them. -/
theorem C6_classification (orgs : List Org) (exclusions : List String)
    (group_id : Option String) :
    ((analyze_orgs_for_deletion orgs exclusions group_id).1 =
        orgs.filter (fun o => !org_protected exclusions group_id o)) ∧
    ((analyze_orgs_for_deletion orgs exclusions group_id).2 =
        orgs.filter (fun o => org_protected exclusions group_id o)) ∧
    (∀ o ∈ orgs, orgExcluded exclusions o = true →
        o ∈ (analyze_orgs_for_deletion orgs exclusions group_id).2) ∧
    (∀ o ∈ orgs, orgExcluded exclusions o = false →
        groupFilterActive group_id = true → o.attributes.group_id ≠ group_id →
        o ∈ (analyze_orgs_for_deletion orgs exclusions group_id).2) ∧
    (∀ o ∈ orgs, orgExcluded exclusions o = false →
        (groupFilterActive group_id = true → o.attributes.group_id = group_id) →
        o ∈ (analyze_orgs_for_deletion orgs exclusions group_id).1) ∧
    (∀ o ∈ orgs,
        (o ∈ (analyze_orgs_for_deletion orgs exclusions group_id).1 ∧
         o ∉ (analyze_orgs_for_deletion orgs exclusions group_id).2) ∨
        (o ∈ (analyze_orgs_for_deletion orgs exclusions group_id).2 ∧
         o ∉ (analyze_orgs_for_deletion orgs exclusions group_id).1)) := by
  have h := analyze_eq_filter orgs exclusions group_id
  rw [h]
  refine ⟨rfl, rfl, ?_, ?_, ?_, ?_⟩
  · intro o ho hexc
    exact List.mem_filter.mpr ⟨ho, by simp [org_protected, hexc]⟩
  · intro o ho hexc hact hmis
    exact List.mem_filter.mpr ⟨ho, by simp [org_protected, hexc, hact, hmis]⟩
  · intro o ho hexc himp
    refine List.mem_filter.mpr ⟨ho, ?_⟩
    cases hact : groupFilterActive group_id
    · simp [org_protected, hexc, hact]
    · simp [org_protected, hexc, hact, himp hact]
  · intro o ho
    by_cases hp : org_protected exclusions group_id o = true
    · right
      refine ⟨List.mem_filter.mpr ⟨ho, hp⟩, ?_⟩
      intro hmem
      have hcontra := (List.mem_filter.mp hmem).2
      simp [hp] at hcontra
    · left
      have hpf : org_protected exclusions group_id o = false := by
        cases hv : org_protected exclusions group_id o
        · rfl
        · exact absurd hv hp
      refine ⟨List.mem_filter.mpr ⟨ho, by simp [hpf]⟩, ?_⟩
      intro hmem
      have hcontra := (List.mem_filter.mp hmem).2
      simp [hpf] at hcontra

/-- An organization excluded by name. -/
def orgA : Org := ⟨some "id-a", ⟨some "alpha", some "g1"⟩⟩

/-- An organization in a different group. -/
def orgB : Org := ⟨some "id-b", ⟨some "beta", some "g2"⟩⟩

/-- Concrete instantiation of `C6_classification`: with exclusion list
`["alpha"]` and group filter `g1`, `orgA` is protected by exclusion and
`orgB` lands in exactly one of the two lists. -/
theorem C6_classification_witness :
    orgA ∈ (analyze_orgs_for_deletion [orgA, orgB] ["alpha"] (some "g1")).2 ∧
    ((orgB ∈ (analyze_orgs_for_deletion [orgA, orgB] ["alpha"] (some "g1")).1 ∧
      orgB ∉ (analyze_orgs_for_deletion [orgA, orgB] ["alpha"] (some "g1")).2) ∨
     (orgB ∈ (analyze_orgs_for_deletion [orgA, orgB] ["alpha"] (some "g1")).2 ∧
      orgB ∉ (analyze_orgs_for_deletion [orgA, orgB] ["alpha"] (some "g1")).1)) :=
  ⟨(C6_classification [orgA, orgB] ["alpha"] (some "g1")).2.2.1 orgA
      (by decide) (by decide),
   (C6_classification [orgA, orgB] ["alpha"] (some "g1")).2.2.2.2.2 orgB
      (by decide)⟩

/-! ### Claim C10: missing name defaults to "Unknown" -/

/-- C10: an organization whose attributes map has no `name` entry is given
the literal name `Unknown` before exclusion matching, so when the exclusion
set contains `Unknown` every such organization is classified protected. -/
theorem C10_unknown_name_protected (orgs : List Org) (exclusions : List String)
    (group_id : Option String) (o : Org) (ho : o ∈ orgs)
    (hname : o.attributes.name = none) (hu : "Unknown" ∈ exclusions) :
    o ∈ (analyze_orgs_for_deletion orgs exclusions group_id).2 := by
  have h := analyze_eq_filter orgs exclusions group_id
  rw [h]
  refine List.mem_filter.mpr ⟨ho, ?_⟩
  have hn : orgName o = "Unknown" := by simp [orgName, hname]
  simp [org_protected, orgExcluded, hn, hu]

/-- A nameless organization. -/
def orgNoName : Org := ⟨some "id-c", ⟨none, some "g1"⟩⟩

/-- Concrete instantiation of `C10_unknown_name_protected`. -/
theorem C10_unknown_name_protected_witness :
    orgNoName ∈ (analyze_orgs_for_deletion [orgNoName] ["Unknown"] none).2 :=
  C10_unknown_name_protected [orgNoName] ["Unknown"] none orgNoName
    (by decide) rfl (by decide)

/-! ### Pagination (`get_snyk_orgs` lines 128-173, `get_org_projects` lines
452-494, `get_org_targets` lines 609-654; the three share one loop body) -/

/-- One page of a paginated listing response: the `data` array (items
abstracted to their numeric payload) and the optional `links.next` field. -/
structure Page where
  data : List Nat
  next : Option String
deriving DecidableEq

/-- Python `str.startswith(pat)`: the pattern's characters are a prefix of
the string's characters (spelled over the character lists so that it
evaluates by kernel reduction). -/
def strStartsWith (s pat : String) : Bool := pat.data.isPrefixOf s.data

/-- Python `str.lstrip('/')`: drop leading slash characters. -/
def strLstripSlash (s : String) : String :=
  String.mk (s.data.dropWhile (fun ch => ch == '/'))

/-- Next-link resolution (lines 156-164): an absolute URL (starting with
`http`) is used as-is, a server-relative path (starting with `/`) is appended
to the base URL, and a bare fragment is appended after a `/`, with leading
slashes stripped. -/
def resolveNext (base link : String) : String :=
  if strStartsWith link "http" then link
  else if strStartsWith link "/" then base ++ link
  else base ++ "/" ++ strLstripSlash link

/-- The shared pagination loop: request the current URL; on a request failure
stop and keep what was accumulated so far (the `except ... break` arm);
otherwise append the page's `data` items and continue with the resolved next
link if one is present.  `server` maps a URL to the response (`none` is a
request failure); the fuel argument bounds the number of requests, which the
Python loop does not, so every theorem below supplies enough fuel for its
whole chain. -/
def fetch_all_pages (server : String → Option Page) (base : String) :
    Nat → String → List Nat → List Nat
  | 0, _, acc => acc
  | fuel + 1, url, acc =>
    match server url with
    | none => acc
    | some page =>
      match page.next with
      | none => acc ++ page.data
      | some link =>
          fetch_all_pages server base fuel (resolveNext base link) (acc ++ page.data)

/-- `SnykOrgDeleter.get_snyk_orgs` (lines 128-173): paginate starting from
the group's orgs endpoint. -/
def get_snyk_orgs (server : String → Option Page) (base group_id : String)
    (fuel : Nat) : List Nat :=
  fetch_all_pages server base fuel (base ++ "/rest/groups/" ++ group_id ++ "/orgs") []

/-- `SnykOrgDeleter.get_org_targets` (lines 609-654): paginate starting from
the organization's targets endpoint. -/
def get_org_targets (server : String → Option Page) (base org_id : String)
    (fuel : Nat) : List Nat :=
  fetch_all_pages server base fuel (base ++ "/rest/orgs/" ++ org_id ++ "/targets") []

/-- A terminating page chain served from a starting URL: each page is what
the server returns for the current URL, each page but the last carries a next
link that resolves to the URL serving the following page, and the last page
has no next link. -/
def chainOk (server : String → Option Page) (base : String) :
    String → List Page → Prop
  | _, [] => False
  | url, [p] => server url = some p ∧ p.next = none
  | url, p :: q :: rest =>
    server url = some p ∧
      ∃ link, p.next = some link ∧
        chainOk server base (resolveNext base link) (q :: rest)

/-- A page chain whose continuation request fails: the listed pages are
served in sequence, each carrying a next link, and the request for the URL
resolved from the last listed page's link fails. -/
def chainFails (server : String → Option Page) (base : String) :
    String → List Page → Prop
  | url, [] => server url = none
  | url, p :: rest =>
    server url = some p ∧
      ∃ link, p.next = some link ∧
        chainFails server base (resolveNext base link) rest

/-- Pagination over a terminating chain accumulates exactly the concatenation
of all pages' items after whatever was already accumulated. -/
theorem fetch_all_pages_chainOk (server : String → Option Page) (base : String) :
    ∀ (pages : List Page) (url : String) (acc : List Nat),
      chainOk server base url pages →
      fetch_all_pages server base pages.length url acc =
        acc ++ (pages.map Page.data).flatten := by
  intro pages
  induction pages with
  | nil => intro url acc h; exact h.elim
  | cons p rest ih =>
    intro url acc h
    cases rest with
    | nil =>
      obtain ⟨hs, hn⟩ := h
      simp [fetch_all_pages, hs, hn]
    | cons q rs =>
      obtain ⟨hs, link, hl, hc⟩ := h
      have hrec := ih (resolveNext base link) (acc ++ p.data) hc
      simp [fetch_all_pages, hs, hl] at hrec ⊢
      exact hrec

/-- Pagination over a chain that ends in a request failure keeps and returns
the items accumulated from the pages before the failure. -/
theorem fetch_all_pages_chainFails (server : String → Option Page) (base : String) :
    ∀ (pages : List Page) (url : String) (acc : List Nat),
      chainFails server base url pages →
      fetch_all_pages server base (pages.length + 1) url acc =
        acc ++ (pages.map Page.data).flatten := by
  intro pages
  induction pages with
  | nil =>
    intro url acc h
    have h0 : server url = none := h
    simp [fetch_all_pages, h0]
  | cons p rest ih =>
    intro url acc h
    obtain ⟨hs, link, hl, hc⟩ := h
    have hrec := ih (resolveNext base link) (acc ++ p.data) hc
    simp [fetch_all_pages, hs, hl] at hrec ⊢
    exact hrec

/-- C5: over any terminating chain of pages — whatever mix of the three
next-link shapes its links use, since `chainOk` threads every link through
the same `resolveNext` resolution the code applies — the listing operations
return the items of every page exactly once, in order; and when a request
during pagination fails, the items accumulated from the earlier pages are
kept and returned. -/
theorem C5_pagination (server : String → Option Page) (base : String) :
    (∀ (group_id : String) (pages : List Page),
      chainOk server base (base ++ "/rest/groups/" ++ group_id ++ "/orgs") pages →
      get_snyk_orgs server base group_id pages.length =
        (pages.map Page.data).flatten) ∧
    (∀ (org_id : String) (pages : List Page),
      chainOk server base (base ++ "/rest/orgs/" ++ org_id ++ "/targets") pages →
      get_org_targets server base org_id pages.length =
        (pages.map Page.data).flatten) ∧
    (∀ (group_id : String) (pages : List Page),
      chainFails server base (base ++ "/rest/groups/" ++ group_id ++ "/orgs") pages →
      get_snyk_orgs server base group_id (pages.length + 1) =
        (pages.map Page.data).flatten) ∧
    (∀ (org_id : String) (pages : List Page),
      chainFails server base (base ++ "/rest/orgs/" ++ org_id ++ "/targets") pages →
      get_org_targets server base org_id (pages.length + 1) =
        (pages.map Page.data).flatten) := by
  refine ⟨?_, ?_, ?_, ?_⟩
  · intro gid pages h
    simpa [get_snyk_orgs] using
      fetch_all_pages_chainOk server base pages
        (base ++ "/rest/groups/" ++ gid ++ "/orgs") [] h
  · intro oid pages h
    simpa [get_org_targets] using
      fetch_all_pages_chainOk server base pages
        (base ++ "/rest/orgs/" ++ oid ++ "/targets") [] h
  · intro gid pages h
    simpa [get_snyk_orgs] using
      fetch_all_pages_chainFails server base pages
        (base ++ "/rest/groups/" ++ gid ++ "/orgs") [] h
  · intro oid pages h
    simpa [get_org_targets] using
      fetch_all_pages_chainFails server base pages
        (base ++ "/rest/orgs/" ++ oid ++ "/targets") [] h

/-- A concrete server: the orgs listing spans four pages whose next links use
all three shapes (absolute URL, server-relative path, bare fragment), and the
targets listing serves one page and then fails on the continuation request. -/
def demoServer : String → Option Page := fun u =>
  if u = "http://a/rest/groups/g/orgs" then some ⟨[1, 2], some "http://a/p1"⟩
  else if u = "http://a/p1" then some ⟨[3], some "/p2"⟩
  else if u = "http://a/p2" then some ⟨[4], some "p3"⟩
  else if u = "http://a/p3" then some ⟨[5], none⟩
  else if u = "http://a/rest/orgs/o/targets" then some ⟨[7], some "/t2"⟩
  else none

/-- Concrete instantiation of `C5_pagination` on `demoServer`: the four-page
chain (one link of each shape) yields all items exactly once, and the
interrupted targets listing returns its first page's items. -/
theorem C5_pagination_witness :
    get_snyk_orgs demoServer "http://a" "g" 4 = [1, 2, 3, 4, 5] ∧
    get_org_targets demoServer "http://a" "o" 2 = [7] := by
  constructor
  · have h := (C5_pagination demoServer "http://a").1 "g"
      [⟨[1, 2], some "http://a/p1"⟩, ⟨[3], some "/p2"⟩,
       ⟨[4], some "p3"⟩, ⟨[5], none⟩]
      ⟨by decide, "http://a/p1", rfl, by decide, "/p2", rfl,
       by decide, "p3", rfl, by decide, rfl⟩
    simpa using h
  · have h := (C5_pagination demoServer "http://a").2.2.2 "o"
      [⟨[7], some "/t2"⟩]
      ⟨by decide, "/t2", rfl,
        (by decide : demoServer (resolveNext "http://a" "/t2") = none)⟩
    simpa using h

/-! ### Delete operations (`delete_org` lines 179-264, `delete_project`
lines 496-543, `delete_target` lines 656-703) -/

/-- A boolean that is not true is false. -/
theorem bool_not_true {b : Bool} (h : ¬ b = true) : b = false := by
  cases b
  · rfl
  · exact absurd rfl h

/-- An HTTP response to an organization-delete call: the status code, whether
`response.json()` parses, and whether the parsed body is a dict whose
`message` contains the "must delete all projects in your organization" text
(lines 215-218). -/
structure Response where
  status : Nat
  jsonOk : Bool
  hasProjectsMsg : Bool
deriving DecidableEq

/-- `response.status_code in [200, 204]` (lines 208, 235, 246). -/
def isSuccess (r : Response) : Bool := r.status == 200 || r.status == 204

/-- The structured "organization still has projects" test of lines 215-218:
status 400, a parsed JSON dict body, and the specific message text. -/
def isHasProjectsError (r : Response) : Bool :=
  r.status == 400 && r.jsonOk && r.hasProjectsMsg

/-- Observable events of one `delete_org` run: the delete calls of the
attempt loop (call index into the response sequence, observed status), the
project-cleanup pass of line 223 (whether any project deletion failed), and
the single recovery retry call of line 233. -/
inductive Event where
  | deleteCall (idx status : Nat)
  | projectCleanup (failed : Bool)
  | recoveryRetry (idx status : Nat)
deriving DecidableEq

/-- The environment one `delete_org` run interacts with: the response the
platform gives to the k-th organization-delete HTTP call of the run, and
whether the project-cleanup pass `delete_all_org_projects` (line 223) would
report a non-empty `failed` list. -/
structure OrgDeleteEnv where
  resp : Nat → Response
  cleanupFailed : Bool

/-- The attempt loop of `delete_org` (lines 183-264), by remaining attempts
and current call index, returning the boolean result and the event trace.
Per attempt: a 429 triggers the shared backoff and `continue` (lines
202-204); a non-2xx response carrying the structured "has projects" error
runs the project cleanup and either aborts with failure (some project failed,
lines 225-227) or makes the single retry call and returns its outcome (lines
233-240); a 2xx returns success (lines 246-248); any other status of 400 or
more raises in `raise_for_status` and is retried, with failure after the
last attempt (lines 250, 254-262); a remaining sub-400 status falls through
`raise_for_status` to the success return of lines 251-252. -/
def delete_orgLoop (env : OrgDeleteEnv) : Nat → Nat → Bool × List Event
  | 0, _ => (false, [])
  | n + 1, c =>
    if (env.resp c).status = 429 then
      ((delete_orgLoop env n (c + 1)).1,
        Event.deleteCall c (env.resp c).status :: (delete_orgLoop env n (c + 1)).2)
    else if isSuccess (env.resp c) then
      (true, [Event.deleteCall c (env.resp c).status])
    else if isHasProjectsError (env.resp c) then
      if env.cleanupFailed then
        (false, [Event.deleteCall c (env.resp c).status, Event.projectCleanup true])
      else
        (isSuccess (env.resp (c + 1)),
          [Event.deleteCall c (env.resp c).status, Event.projectCleanup false,
            Event.recoveryRetry (c + 1) (env.resp (c + 1)).status])
    else if 400 ≤ (env.resp c).status then
      ((delete_orgLoop env n (c + 1)).1,
        Event.deleteCall c (env.resp c).status :: (delete_orgLoop env n (c + 1)).2)
    else
      (true, [Event.deleteCall c (env.resp c).status])

/-- `SnykOrgDeleter.delete_org` (lines 179-264): the loop with
`max_retries = 3`, starting at the first call. -/
def delete_org (env : OrgDeleteEnv) : Bool × List Event :=
  delete_orgLoop env 3 0

/-- `SnykOrgDeleter.delete_org_with_projects` (lines 272-288): delegates to
`delete_org` and returns its boolean result. -/
def delete_org_with_projects (env : OrgDeleteEnv) : Bool :=
  (delete_org env).1

/-- Event classifier: a project-cleanup event. -/
def isCleanupEv : Event → Bool
  | .projectCleanup _ => true
  | _ => false

/-- Event classifier: the recovery retry call. -/
def isRecoveryEv : Event → Bool
  | .recoveryRetry _ _ => true
  | _ => false

/-- Event classifier: an organization-delete call of the attempt loop. -/
def isDeleteCallEv : Event → Bool
  | .deleteCall _ _ => true
  | _ => false

/-- The events strictly after the first event satisfying `p` (empty when no
event satisfies `p`). -/
def afterFirst (p : Event → Bool) (tr : List Event) : List Event :=
  (tr.dropWhile (fun e => !p e)).drop 1

/-- A successful response is not the "has projects" error. -/
theorem success_not_hasProjects (r : Response) (h : isSuccess r = true) :
    isHasProjectsError r = false := by
  simp [isSuccess] at h
  rcases h with h | h <;> simp [isHasProjectsError, h]

/-- The structural properties one `delete_org` attempt-loop run with `n`
remaining attempts always satisfies. -/
def OrgRunSpec (env : OrgDeleteEnv) (n : Nat) (r : Bool × List Event) : Prop :=
  (∀ i s, Event.deleteCall i s ∈ r.2 → isHasProjectsError (env.resp i) = true →
      Event.projectCleanup env.cleanupFailed ∈ r.2) ∧
  (Event.projectCleanup true ∈ r.2 →
      r.1 = false ∧ r.2.countP isRecoveryEv = 0) ∧
  (Event.projectCleanup false ∈ r.2 →
      ∃ j, afterFirst isCleanupEv r.2 =
          [Event.recoveryRetry j ((env.resp j).status)] ∧
        r.1 = isSuccess (env.resp j)) ∧
  afterFirst isRecoveryEv r.2 = [] ∧
  r.2.countP isRecoveryEv ≤ 1 ∧
  r.2.countP isDeleteCallEv ≤ n

/-- A run that makes one non-"has projects" call and stops satisfies the
structural spec. -/
theorem OrgRunSpec_single (env : OrgDeleteEnv) (n c : Nat) (b : Bool)
    (h : isHasProjectsError (env.resp c) = false) :
    OrgRunSpec env (n + 1) (b, [Event.deleteCall c (env.resp c).status]) := by
  refine ⟨?_, ?_, ?_, ?_, ?_, ?_⟩
  · intro i s hmem hhp
    have heq := List.mem_singleton.mp hmem
    injection heq with hi hs2
    subst hi
    rw [h] at hhp
    exact absurd hhp Bool.false_ne_true
  · intro hmem
    simp at hmem
  · intro hmem
    simp at hmem
  · simp [afterFirst, isRecoveryEv, List.dropWhile_cons]
  · simp [List.countP_cons, isRecoveryEv]
  · simp [List.countP_cons, isDeleteCallEv]

/-- Prepending a non-"has projects" call to a run satisfying the spec with
`n` attempts gives a run satisfying the spec with `n + 1` attempts. -/
theorem OrgRunSpec_cons (env : OrgDeleteEnv) (n c : Nat)
    (h : isHasProjectsError (env.resp c) = false)
    (ih : OrgRunSpec env n (delete_orgLoop env n (c + 1))) :
    OrgRunSpec env (n + 1)
      ((delete_orgLoop env n (c + 1)).1,
        Event.deleteCall c (env.resp c).status :: (delete_orgLoop env n (c + 1)).2) := by
  obtain ⟨ih1, ih2, ih3, ih4, ih5, ih6⟩ := ih
  refine ⟨?_, ?_, ?_, ?_, ?_, ?_⟩
  · intro i s hmem hhp
    rcases List.mem_cons.mp hmem with heq | hmem2
    · injection heq with hi hs2
      subst hi
      rw [h] at hhp
      exact absurd hhp Bool.false_ne_true
    · exact List.mem_cons_of_mem _ (ih1 i s hmem2 hhp)
  · intro hmem
    rcases List.mem_cons.mp hmem with heq | hmem2
    · exact Event.noConfusion heq
    · obtain ⟨hres, hcnt⟩ := ih2 hmem2
      exact ⟨hres, by simp [List.countP_cons, isRecoveryEv, hcnt]⟩
  · intro hmem
    rcases List.mem_cons.mp hmem with heq | hmem2
    · exact Event.noConfusion heq
    · obtain ⟨j, haf, hres⟩ := ih3 hmem2
      refine ⟨j, ?_, hres⟩
      simpa [afterFirst, List.dropWhile_cons, isCleanupEv] using haf
  · simpa [afterFirst, List.dropWhile_cons, isRecoveryEv] using ih4
  · simpa [List.countP_cons, isRecoveryEv] using ih5
  · have h6 := ih6
    simp only [List.countP_cons, isDeleteCallEv]
    simp
    omega

/-- Every run of the `delete_org` attempt loop satisfies the structural
spec. -/
theorem delete_orgLoop_spec (env : OrgDeleteEnv) :
    ∀ n c, OrgRunSpec env n (delete_orgLoop env n c) := by
  intro n
  induction n with
  | zero =>
    intro c
    refine ⟨?_, ?_, ?_, ?_, ?_, ?_⟩ <;>
      simp [delete_orgLoop, afterFirst]
  | succ n ih =>
    intro c
    by_cases h429 : (env.resp c).status = 429
    · have hL : delete_orgLoop env (n + 1) c =
          ((delete_orgLoop env n (c + 1)).1,
            Event.deleteCall c (env.resp c).status :: (delete_orgLoop env n (c + 1)).2) := by
        simp only [delete_orgLoop]
        rw [if_pos h429]
      rw [hL]
      refine OrgRunSpec_cons env n c ?_ (ih (c + 1))
      simp [isHasProjectsError, h429]
    · by_cases hsucc : isSuccess (env.resp c) = true
      · have hL : delete_orgLoop env (n + 1) c =
            (true, [Event.deleteCall c (env.resp c).status]) := by
          simp only [delete_orgLoop]
          rw [if_neg h429, if_pos hsucc]
        rw [hL]
        exact OrgRunSpec_single env n c true (success_not_hasProjects _ hsucc)
      · by_cases hhp : isHasProjectsError (env.resp c) = true
        · cases hcf : env.cleanupFailed with
          | true =>
            have hL : delete_orgLoop env (n + 1) c =
                (false, [Event.deleteCall c (env.resp c).status,
                  Event.projectCleanup true]) := by
              simp only [delete_orgLoop]
              rw [if_neg h429, if_neg hsucc, if_pos hhp, if_pos hcf]
            rw [hL]
            refine ⟨?_, ?_, ?_, ?_, ?_, ?_⟩
            · intro i s hmem hhpi
              rw [hcf]
              simp
            · intro _
              exact ⟨rfl, by simp [List.countP_cons, isRecoveryEv]⟩
            · intro hmem
              simp at hmem
            · simp [afterFirst, isRecoveryEv, List.dropWhile_cons]
            · simp [List.countP_cons, isRecoveryEv]
            · simp [List.countP_cons, isDeleteCallEv]
          | false =>
            have hL : delete_orgLoop env (n + 1) c =
                (isSuccess (env.resp (c + 1)),
                  [Event.deleteCall c (env.resp c).status,
                   Event.projectCleanup false,
                   Event.recoveryRetry (c + 1) (env.resp (c + 1)).status]) := by
              simp only [delete_orgLoop]
              rw [if_neg h429, if_neg hsucc, if_pos hhp, if_neg (by simp [hcf])]
            rw [hL]
            refine ⟨?_, ?_, ?_, ?_, ?_, ?_⟩
            · intro i s hmem hhpi
              rw [hcf]
              simp
            · intro hmem
              simp at hmem
            · intro _
              exact ⟨c + 1,
                by simp [afterFirst, isCleanupEv, List.dropWhile_cons], rfl⟩
            · simp [afterFirst, isRecoveryEv, isCleanupEv, List.dropWhile_cons]
            · simp [List.countP_cons, isRecoveryEv, isCleanupEv, isDeleteCallEv]
            · simp [List.countP_cons, isDeleteCallEv, isRecoveryEv, isCleanupEv]
        · by_cases h400 : 400 ≤ (env.resp c).status
          · have hL : delete_orgLoop env (n + 1) c =
                ((delete_orgLoop env n (c + 1)).1,
                  Event.deleteCall c (env.resp c).status ::
                    (delete_orgLoop env n (c + 1)).2) := by
              simp only [delete_orgLoop]
              rw [if_neg h429, if_neg hsucc, if_neg hhp, if_pos h400]
            rw [hL]
            exact OrgRunSpec_cons env n c (bool_not_true hhp) (ih (c + 1))
          · have hL : delete_orgLoop env (n + 1) c =
                (true, [Event.deleteCall c (env.resp c).status]) := by
              simp only [delete_orgLoop]
              rw [if_neg h429, if_neg hsucc, if_neg hhp, if_neg h400]
            rw [hL]
            exact OrgRunSpec_single env n c true (bool_not_true hhp)

/-- With every response rate-limited, each attempt consumes one unit of the
budget and the loop fails after exactly `n` delete calls. -/
theorem delete_orgLoop_all429 (env : OrgDeleteEnv)
    (h : ∀ k, (env.resp k).status = 429) :
    ∀ n c, (delete_orgLoop env n c).1 = false ∧
      (delete_orgLoop env n c).2.countP isDeleteCallEv = n := by
  intro n
  induction n with
  | zero => intro c; exact ⟨rfl, rfl⟩
  | succ n ih =>
    intro c
    have hL : delete_orgLoop env (n + 1) c =
        ((delete_orgLoop env n (c + 1)).1,
          Event.deleteCall c (env.resp c).status :: (delete_orgLoop env n (c + 1)).2) := by
      simp only [delete_orgLoop]
      rw [if_pos (h c)]
    rw [hL]
    obtain ⟨h1, h2⟩ := ih (c + 1)
    exact ⟨h1, by simp [List.countP_cons, isDeleteCallEv, h2]⟩

/-- With every response a 404, every attempt takes the `raise_for_status`
retry path (there is no 404 branch in `delete_org`) and the loop fails. -/
theorem delete_orgLoop_all404 (env : OrgDeleteEnv)
    (h : ∀ k, (env.resp k).status = 404) :
    ∀ n c, (delete_orgLoop env n c).1 = false := by
  intro n
  induction n with
  | zero => intro c; rfl
  | succ n ih =>
    intro c
    have hL : delete_orgLoop env (n + 1) c =
        ((delete_orgLoop env n (c + 1)).1,
          Event.deleteCall c (env.resp c).status :: (delete_orgLoop env n (c + 1)).2) := by
      simp only [delete_orgLoop]
      rw [if_neg (by rw [h c]; omega), if_neg (by simp [isSuccess, h c]),
        if_neg (by simp [isHasProjectsError, h c]), if_pos (by rw [h c]; omega)]
    rw [hL]
    exact ih (c + 1)

/-- The attempt loop of `delete_project` (lines 501-543) over the statuses of
its successive HTTP calls, by remaining attempts and call index, returning
the boolean result and the number of calls made.  Per attempt: a 429
triggers the shared backoff and `continue` (lines 512-514); a 404 means the
project is already gone and is success (lines 517-519); 200/204 is success
(lines 522-524); any other status of 400 or more raises in
`raise_for_status` and is retried, with failure after the last attempt
(lines 526, 529-541); a remaining sub-400 status falls through to the
success return of line 527. -/
def delete_projLoop (resp : Nat → Nat) : Nat → Nat → Bool × Nat
  | 0, _ => (false, 0)
  | n + 1, c =>
    if resp c = 429 then
      ((delete_projLoop resp n (c + 1)).1, (delete_projLoop resp n (c + 1)).2 + 1)
    else if resp c = 404 then (true, 1)
    else if resp c = 200 ∨ resp c = 204 then (true, 1)
    else if 400 ≤ resp c then
      ((delete_projLoop resp n (c + 1)).1, (delete_projLoop resp n (c + 1)).2 + 1)
    else (true, 1)

/-- `SnykOrgDeleter.delete_project` (lines 496-543): `max_retries = 3`. -/
def delete_project (resp : Nat → Nat) : Bool × Nat := delete_projLoop resp 3 0

/-- The attempt loop of `delete_target` (lines 661-703); its body is
line-for-line the same as `delete_project`'s (429 → backoff and `continue`,
404 → success, 200/204 → success, other errors retried up to the budget). -/
def delete_targetLoop (resp : Nat → Nat) : Nat → Nat → Bool × Nat
  | 0, _ => (false, 0)
  | n + 1, c =>
    if resp c = 429 then
      ((delete_targetLoop resp n (c + 1)).1, (delete_targetLoop resp n (c + 1)).2 + 1)
    else if resp c = 404 then (true, 1)
    else if resp c = 200 ∨ resp c = 204 then (true, 1)
    else if 400 ≤ resp c then
      ((delete_targetLoop resp n (c + 1)).1, (delete_targetLoop resp n (c + 1)).2 + 1)
    else (true, 1)

/-- `SnykOrgDeleter.delete_target` (lines 656-703): `max_retries = 3`. -/
def delete_target (resp : Nat → Nat) : Bool × Nat := delete_targetLoop resp 3 0

/-- The project-delete loop never makes more calls than it has attempts. -/
theorem delete_projLoop_calls_le (resp : Nat → Nat) :
    ∀ n c, (delete_projLoop resp n c).2 ≤ n := by
  intro n
  induction n with
  | zero => intro c; exact Nat.le_refl 0
  | succ n ih =>
    intro c
    simp only [delete_projLoop]
    split_ifs
    · exact Nat.succ_le_succ (ih (c + 1))
    · exact Nat.succ_le_succ (Nat.zero_le n)
    · exact Nat.succ_le_succ (Nat.zero_le n)
    · exact Nat.succ_le_succ (ih (c + 1))
    · exact Nat.succ_le_succ (Nat.zero_le n)

/-- The target-delete loop never makes more calls than it has attempts. -/
theorem delete_targetLoop_calls_le (resp : Nat → Nat) :
    ∀ n c, (delete_targetLoop resp n c).2 ≤ n := by
  intro n
  induction n with
  | zero => intro c; exact Nat.le_refl 0
  | succ n ih =>
    intro c
    simp only [delete_targetLoop]
    split_ifs
    · exact Nat.succ_le_succ (ih (c + 1))
    · exact Nat.succ_le_succ (Nat.zero_le n)
    · exact Nat.succ_le_succ (Nat.zero_le n)
    · exact Nat.succ_le_succ (ih (c + 1))
    · exact Nat.succ_le_succ (Nat.zero_le n)

/-- A 404 on the current attempt makes the project-delete loop succeed with
that single call. -/
theorem delete_projLoop_404 (resp : Nat → Nat) (n c : Nat) (h : resp c = 404) :
    delete_projLoop resp (n + 1) c = (true, 1) := by
  simp [delete_projLoop, h]

/-- A 404 on the current attempt makes the target-delete loop succeed with
that single call. -/
theorem delete_targetLoop_404 (resp : Nat → Nat) (n c : Nat) (h : resp c = 404) :
    delete_targetLoop resp (n + 1) c = (true, 1) := by
  simp [delete_targetLoop, h]

/-- With every response rate-limited, each attempt of the project-delete
loop consumes one unit of the budget and the loop fails after `n` calls. -/
theorem delete_projLoop_all429 (resp : Nat → Nat) (h : ∀ k, resp k = 429) :
    ∀ n c, delete_projLoop resp n c = (false, n) := by
  intro n
  induction n with
  | zero => intro c; rfl
  | succ n ih =>
    intro c
    simp [delete_projLoop, h c, ih (c + 1)]

/-- With every response rate-limited, each attempt of the target-delete
loop consumes one unit of the budget and the loop fails after `n` calls. -/
theorem delete_targetLoop_all429 (resp : Nat → Nat) (h : ∀ k, resp k = 429) :
    ∀ n c, delete_targetLoop resp n c = (false, n) := by
  intro n
  induction n with
  | zero => intro c; rfl
  | succ n ih =>
    intro c
    simp [delete_targetLoop, h c, ih (c + 1)]

/-! ### Claim C1: the "has projects" recovery path -/

/-- C1: in every `delete_org` run, whenever an organization-delete call
returns the structured 400 "organization still has projects" error, the
project-cleanup pass runs; if any project deletion in that pass failed, the
run reports failure and makes no recovery retry at all; if every project
deletion succeeded, exactly one recovery retry is made, the reported result
is that retry's outcome, and no event — in particular no further
organization-delete call — follows the recovery retry, so the
organization-delete call is never attempted again after it. -/
theorem C1_has_projects_recovery (env : OrgDeleteEnv) :
    (∀ i s, Event.deleteCall i s ∈ (delete_org env).2 →
        isHasProjectsError (env.resp i) = true →
        Event.projectCleanup env.cleanupFailed ∈ (delete_org env).2) ∧
    (Event.projectCleanup true ∈ (delete_org env).2 →
        (delete_org env).1 = false ∧
        (delete_org env).2.countP isRecoveryEv = 0) ∧
    (Event.projectCleanup false ∈ (delete_org env).2 →
        ∃ j, afterFirst isCleanupEv (delete_org env).2 =
            [Event.recoveryRetry j ((env.resp j).status)] ∧
          (delete_org env).1 = isSuccess (env.resp j)) ∧
    afterFirst isRecoveryEv (delete_org env).2 = [] ∧
    (delete_org env).2.countP isRecoveryEv ≤ 1 :=
  let h := delete_orgLoop_spec env 3 0
  ⟨h.1, h.2.1, h.2.2.1, h.2.2.2.1, h.2.2.2.2.1⟩

/-- An environment whose first organization-delete call returns the
structured "has projects" error, whose project cleanup succeeds, and whose
retry call returns 204. -/
def envRecovery : OrgDeleteEnv :=
  ⟨fun k => if k = 0 then ⟨400, true, true⟩ else ⟨204, true, false⟩, false⟩

/-- Concrete instantiation of `C1_has_projects_recovery` on `envRecovery`:
after successful project cleanup there is exactly one recovery retry, it is
the final event, and its 204 outcome is the reported (successful) result. -/
theorem C1_has_projects_recovery_witness :
    ∃ j, afterFirst isCleanupEv (delete_org envRecovery).2 =
        [Event.recoveryRetry j ((envRecovery.resp j).status)] ∧
      (delete_org envRecovery).1 = isSuccess (envRecovery.resp j) :=
  (C1_has_projects_recovery envRecovery).2.2.1 (by decide)

/-! ### Claim C2: 404 treated as success -/

/-- C2 counterexample: an organization-delete run in which the platform
answers 404 to every call returns failure, because `delete_org` — unlike
`delete_project` and `delete_target` — has no 404 branch: the 404 raises in
`raise_for_status` and exhausts the retry budget.  This falsifies the claim
that every delete operation returns success on a 404. -/
theorem C2_org_404_counterexample :
    (delete_org ⟨fun _ => ⟨404, true, false⟩, false⟩).1 = false := by
  decide

/-- C2 amended: a 404 ("resource not found") response makes `delete_project`
and `delete_target` return success immediately, so deleting an
already-deleted project or target reports success rather than error; the
organization delete however has no 404 handling and reports failure when
its calls return 404. -/
theorem C2_not_found_idempotent :
    (∀ resp : Nat → Nat, resp 0 = 404 → delete_project resp = (true, 1)) ∧
    (∀ resp : Nat → Nat, resp 0 = 404 → delete_target resp = (true, 1)) ∧
    (∀ env : OrgDeleteEnv, (∀ k, (env.resp k).status = 404) →
        (delete_org env).1 = false) :=
  ⟨fun resp h => delete_projLoop_404 resp 2 0 h,
   fun resp h => delete_targetLoop_404 resp 2 0 h,
   fun env h => delete_orgLoop_all404 env h 3 0⟩

/-- Concrete instantiation of `C2_not_found_idempotent` at the all-404
response environments. -/
theorem C2_not_found_idempotent_witness :
    delete_project (fun _ => 404) = (true, 1) ∧
    delete_target (fun _ => 404) = (true, 1) ∧
    (delete_org ⟨fun _ => ⟨404, false, false⟩, true⟩).1 = false :=
  ⟨C2_not_found_idempotent.1 (fun _ => 404) rfl,
   C2_not_found_idempotent.2.1 (fun _ => 404) rfl,
   C2_not_found_idempotent.2.2 ⟨fun _ => ⟨404, false, false⟩, true⟩ (fun _ => rfl)⟩

/-! ### Claim C3: the retry budget and 429 -/

/-- C3 counterexample: `delete_project` with every response rate-limited.
The `continue` after the backoff wait advances the `for attempt in
range(3)` loop, so three 429 responses exhaust the whole retry budget and
the delete returns failure after exactly 3 calls — whereas the claim states
that 429 responses are not counted against the budget and alone can never
exhaust it. -/
theorem C3_429_exhausts_budget_counterexample :
    delete_project (fun _ => 429) = (false, 3) := by
  decide

/-- C3 amended: every delete operation makes at most 3 attempts; a 429
response triggers the shared backoff wait and then proceeds to the next
attempt, consuming one of the 3 attempts, so an all-429 response sequence
exhausts the budget after exactly 3 calls and the operation reports
failure. -/
theorem C3_retry_budget :
    (∀ resp : Nat → Nat, (delete_project resp).2 ≤ 3) ∧
    (∀ resp : Nat → Nat, (delete_target resp).2 ≤ 3) ∧
    (∀ env : OrgDeleteEnv, (delete_org env).2.countP isDeleteCallEv ≤ 3) ∧
    (∀ resp : Nat → Nat, (∀ k, resp k = 429) → delete_project resp = (false, 3)) ∧
    (∀ resp : Nat → Nat, (∀ k, resp k = 429) → delete_target resp = (false, 3)) ∧
    (∀ env : OrgDeleteEnv, (∀ k, (env.resp k).status = 429) →
        (delete_org env).1 = false ∧
        (delete_org env).2.countP isDeleteCallEv = 3) :=
  ⟨fun resp => delete_projLoop_calls_le resp 3 0,
   fun resp => delete_targetLoop_calls_le resp 3 0,
   fun env => (delete_orgLoop_spec env 3 0).2.2.2.2.2,
   fun resp h => delete_projLoop_all429 resp h 3 0,
   fun resp h => delete_targetLoop_all429 resp h 3 0,
   fun env h => delete_orgLoop_all429 env h 3 0⟩

/-- Concrete instantiation of `C3_retry_budget` at all-429 environments. -/
theorem C3_retry_budget_witness :
    delete_target (fun _ => 429) = (false, 3) ∧
    (delete_org ⟨fun _ => ⟨429, false, false⟩, false⟩).1 = false ∧
    (delete_org ⟨fun _ => ⟨429, false, false⟩, false⟩).2.countP isDeleteCallEv = 3 :=
  ⟨C3_retry_budget.2.2.2.2.1 (fun _ => 429) (fun _ => rfl),
   (C3_retry_budget.2.2.2.2.2 ⟨fun _ => ⟨429, false, false⟩, false⟩ (fun _ => rfl)).1,
   (C3_retry_budget.2.2.2.2.2 ⟨fun _ => ⟨429, false, false⟩, false⟩ (fun _ => rfl)).2⟩

/-! ### Claim C4: target pass before organization delete
(`execute_deletion.delete_org_worker`, lines 391-420) -/

/-- The two filters of a list by a predicate together cover it. -/
theorem filter_length_split {α : Type} (p : α → Bool) (l : List α) :
    (l.filter p).length + (l.filter (fun a => ! p a)).length = l.length := by
  induction l with
  | nil => rfl
  | cons a l ih =>
    cases h : p a
    · simp [List.filter_cons, h]
      omega
    · simp [List.filter_cons, h]
      omega

/-- `SnykOrgDeleter.delete_all_org_targets` (lines 705-768): enumerate the
organization's targets and delete each one, collecting each target's
identifier into the successful or the failed list under the results lock.
The per-target delete outcome is abstracted by `delOk`; the pool's `with`
block and the `as_completed` loop make the function return only after every
target has an outcome, and the concurrent completion order only permutes the
lists, which is abstracted to enumeration order. -/
def delete_all_org_targets (targets : List String) (delOk : String → Bool) :
    List String × List String :=
  (targets.filter delOk, targets.filter (fun t => ! delOk t))

/-- Observable phases of one `delete_org_worker` run: the completed target
pass (with its success and failure counts) and the organization-delete
events. -/
inductive WorkerEvent where
  | targetsDone (nSuccess nFailed : Nat)
  | orgEvent (e : Event)
deriving DecidableEq

/-- `execute_deletion.delete_org_worker` (lines 391-420): step 1 deletes all
targets (lines 399-404, failures only logged), then step 2 deletes the
organization via `delete_org_with_projects` (line 410), whose result is the
worker's result.  The trace records the completed target pass followed by
every organization-delete event. -/
def delete_org_worker (targets : List String) (delOk : String → Bool)
    (env : OrgDeleteEnv) : Bool × List WorkerEvent :=
  let tRes := delete_all_org_targets targets delOk
  let orgRun := delete_org env
  (orgRun.1,
    WorkerEvent.targetsDone tRes.1.length tRes.2.length ::
      orgRun.2.map WorkerEvent.orgEvent)

/-- Every `delete_org` run opens with the first organization-delete call. -/
theorem delete_orgLoop_head (env : OrgDeleteEnv) (n c : Nat) :
    (delete_orgLoop env (n + 1) c).2.head? =
      some (Event.deleteCall c (env.resp c).status) := by
  simp only [delete_orgLoop]
  split_ifs <;> rfl

/-- `delete_org` opens with the organization-delete call at index 0. -/
theorem delete_org_head (env : OrgDeleteEnv) :
    (delete_org env).2.head? = some (Event.deleteCall 0 (env.resp 0).status) :=
  delete_orgLoop_head env 2 0

/-- C4: in every worker run, the target-deletion pass completes first — its
completion event heads the trace and assigns every target an outcome
(success count plus failure count equals the target count) — before any
organization-delete activity, which makes up the rest of the trace and
starts with the organization-delete call; and the worker's result does not
depend on the target outcomes, so the organization-delete is attempted
regardless of how many target deletions failed. -/
theorem C4_targets_before_org_delete (targets : List String)
    (delOk delOk2 : String → Bool) (env : OrgDeleteEnv) :
    ((delete_org_worker targets delOk env).2.head? =
        some (WorkerEvent.targetsDone
          (delete_all_org_targets targets delOk).1.length
          (delete_all_org_targets targets delOk).2.length)) ∧
    ((delete_all_org_targets targets delOk).1.length +
        (delete_all_org_targets targets delOk).2.length = targets.length) ∧
    ((delete_org_worker targets delOk env).2.tail =
        (delete_org env).2.map WorkerEvent.orgEvent) ∧
    ((delete_org_worker targets delOk env).2.tail.head? =
        some (WorkerEvent.orgEvent (Event.deleteCall 0 (env.resp 0).status))) ∧
    ((delete_org_worker targets delOk env).1 =
        (delete_org_worker targets delOk2 env).1) := by
  refine ⟨rfl, filter_length_split delOk targets, rfl, ?_, rfl⟩
  show ((delete_org env).2.map WorkerEvent.orgEvent).head? = _
  rw [List.head?_map, delete_org_head env]
  rfl

/-! ### Claim C8: result-set disjointness (`execute_deletion`, lines 377-450) -/

/-- The terminal behavior of one organization worker as seen by
`execute_deletion`: either it runs to completion, returning its boolean
success having appended its own result under the lock (lines 412-418), or it
raises before appending, in which case the `as_completed` handler appends
the failure for it (lines 437-444). -/
inductive WorkerOutcome where
  | completed (success : Bool)
  | raised
deriving DecidableEq

/-- The single result-list append one organization contributes (`true` =
the `successful` list, `false` = the `failed` list). -/
def appendEvent : String × WorkerOutcome → Bool × String
  | (org_id, .completed b) => (b, org_id)
  | (org_id, .raised) => (false, org_id)

/-- Replay a sequence of result-list appends into the `successful` and
`failed` lists (lines 379-382, 412-418, 443-444). -/
def applyAppends : List (Bool × String) → List String × List String
  | [] => ([], [])
  | e :: rest =>
    let p := applyAppends rest
    if e.1 then (e.2 :: p.1, p.2) else (p.1, e.2 :: p.2)

/-- `SnykOrgDeleter.execute_deletion` (lines 377-450), abstracted over the
order `sched` in which the concurrent workers acquired the results lock: the
theorems below quantify over every `sched` that is a permutation of the
per-organization append events, covering every interleaving of worker
completions and worker exceptions. -/
def execute_deletion (sched : List (Bool × String)) : List String × List String :=
  applyAppends sched

/-- Counting an identifier in the replayed result lists counts the matching
append events. -/
theorem applyAppends_count (a : String) :
    ∀ evs : List (Bool × String),
      (applyAppends evs).1.count a = evs.countP (fun e => e.1 && (e.2 == a)) ∧
      (applyAppends evs).2.count a = evs.countP (fun e => !e.1 && (e.2 == a)) := by
  intro evs
  induction evs with
  | nil => exact ⟨rfl, rfl⟩
  | cons e rest ih =>
    obtain ⟨ih1, ih2⟩ := ih
    obtain ⟨b, s⟩ := e
    cases b <;> cases hsa : (s == a : Bool) <;>
      simp [applyAppends, List.countP_cons, List.count_cons, ih1, ih2, hsa]

/-- The appends routed to the two lists partition the appends carrying a
given identifier. -/
theorem countP_append_split (a : String) (evs : List (Bool × String)) :
    evs.countP (fun e => e.1 && (e.2 == a)) +
      evs.countP (fun e => !e.1 && (e.2 == a)) =
      evs.countP (fun e => e.2 == a) := by
  induction evs with
  | nil => rfl
  | cons e rest ih =>
    obtain ⟨b, s⟩ := e
    cases b <;> cases hsa : (s == a : Bool) <;>
      simp [List.countP_cons, hsa] <;> omega

/-- Every organization contributes exactly one append, carrying its own
identifier. -/
theorem appendEvent_snd (p : String × WorkerOutcome) : (appendEvent p).2 = p.1 := by
  obtain ⟨s, o⟩ := p
  cases o <;> rfl

/-- Counting appends carrying an identifier counts the organizations with
that identifier. -/
theorem countP_map_appendEvent (a : String) (orgs : List (String × WorkerOutcome)) :
    (orgs.map appendEvent).countP (fun e => e.2 == a) =
      (orgs.map Prod.fst).count a := by
  induction orgs with
  | nil => rfl
  | cons p rest ih =>
    simp [List.countP_cons, List.count_cons, appendEvent_snd, ih]

/-- C8: for every set of organizations with platform-unique identifiers and
every interleaving of worker completions and worker exceptions (every
permutation `sched` of the per-organization append events), each input
identifier ends up in exactly one of the two result lists, exactly once, and
never in both. -/
theorem C8_result_set_disjoint (orgs : List (String × WorkerOutcome))
    (sched : List (Bool × String))
    (hperm : sched.Perm (orgs.map appendEvent))
    (hnodup : (orgs.map Prod.fst).Nodup) :
    ∀ org_id ∈ orgs.map Prod.fst,
      (execute_deletion sched).1.count org_id +
        (execute_deletion sched).2.count org_id = 1 ∧
      ((org_id ∈ (execute_deletion sched).1 ∧
          org_id ∉ (execute_deletion sched).2) ∨
       (org_id ∈ (execute_deletion sched).2 ∧
          org_id ∉ (execute_deletion sched).1)) := by
  intro a ha
  have hc := applyAppends_count a sched
  have hsum : (execute_deletion sched).1.count a +
      (execute_deletion sched).2.count a = 1 := by
    simp only [execute_deletion]
    rw [hc.1, hc.2, countP_append_split, hperm.countP_eq, countP_map_appendEvent,
      List.count_eq_one_of_mem hnodup ha]
  refine ⟨hsum, ?_⟩
  rcases Nat.eq_zero_or_pos ((execute_deletion sched).1.count a) with h0 | hpos
  · right
    constructor
    · exact List.count_pos_iff.mp (by omega)
    · intro hmem
      have hm := List.count_pos_iff.mpr hmem
      omega
  · left
    constructor
    · exact List.count_pos_iff.mp hpos
    · intro hmem
      have hm := List.count_pos_iff.mpr hmem
      omega

/-- Concrete instantiation of `C8_result_set_disjoint`: three organizations
(one completing successfully, one completing with failure, one raising) and
an interleaved lock-acquisition order. -/
theorem C8_result_set_disjoint_witness :
    (execute_deletion [(false, "b"), (true, "a"), (false, "c")]).1.count "a" +
      (execute_deletion [(false, "b"), (true, "a"), (false, "c")]).2.count "a" = 1 ∧
    (("a" ∈ (execute_deletion [(false, "b"), (true, "a"), (false, "c")]).1 ∧
        "a" ∉ (execute_deletion [(false, "b"), (true, "a"), (false, "c")]).2) ∨
     ("a" ∈ (execute_deletion [(false, "b"), (true, "a"), (false, "c")]).2 ∧
        "a" ∉ (execute_deletion [(false, "b"), (true, "a"), (false, "c")]).1)) :=
  C8_result_set_disjoint
    [("a", WorkerOutcome.completed true), ("b", WorkerOutcome.completed false),
      ("c", WorkerOutcome.raised)]
    [(false, "b"), (true, "a"), (false, "c")]
    (by decide) (by decide) "a" (by decide)
